import Mathlib

/-!
Verification of the Wine-App-Manager process supervisor against its
specification.  The definitions below are a shallow embedding of the C++
source (`wine_executor.cpp`, the `ProcessMonitor` implementation and the
`wine_wrapper.hpp` data model).  Interaction with the operating system
(`kill`, `fork`, `/proc` reads, `stat`) is modelled by explicit oracle
parameters; everything else is translated statement by statement.
-/

namespace WineWrapper

/-- `enum class ProcessState` from wine_wrapper.hpp. -/
inductive ProcessState where
  | IDLE
  | STARTING
  | RUNNING
  | PAUSED
  | STOPPING
  | STOPPED
  | ERROR
  | KILLED
deriving DecidableEq, Repr

/-- `enum class WineArchitecture` from wine_wrapper.hpp. -/
inductive WineArchitecture where
  | WIN32
  | WIN64
  | AUTO_DETECT
deriving DecidableEq, Repr

/-- `struct ProcessInfo` from wine_wrapper.hpp.  Timestamps are modelled as
natural numbers; `cpu_usage` is a `double` in the source but the only value
the source ever computes for it is `0.0` (`calculate_cpu_usage` returns
`0.0` on both branches), so a `Nat` carries it faithfully. -/
structure ProcessInfo where
  pid : Int
  state : ProcessState
  executable_path : String
  arguments : List String
  environment : List (String × String)
  start_time : Nat
  end_time : Nat
  exit_code : Int
  stdout_data : String
  stderr_data : String
  memory_usage : Nat
  cpu_usage : Nat
  wine_prefix : String
  architecture : WineArchitecture
deriving DecidableEq, Repr

/-- `ProcessInfo()` — value initialisation of the aggregate: scalars are
zeroed (so `pid = 0`, `state` is the first enumerator `IDLE`,
`architecture` the first enumerator `WIN32`), strings and containers are
empty. -/
def ProcessInfo.default : ProcessInfo :=
  { pid := 0
    state := .IDLE
    executable_path := ""
    arguments := []
    environment := []
    start_time := 0
    end_time := 0
    exit_code := 0
    stdout_data := ""
    stderr_data := ""
    memory_usage := 0
    cpu_usage := 0
    wine_prefix := ""
    architecture := .WIN32 }

/-- Log lines emitted through `Logger`.  Only the level and the text matter
for the properties below. -/
inductive LogMsg where
  | debug (s : String)
  | info (s : String)
  | warning (s : String)
  | error (s : String)
deriving DecidableEq, Repr

/-- `std::map<pid_t, ProcessInfo> monitored_processes`, modelled as an
association list with unique keys (the map's entries in iteration order). -/
abbrev ProcTable := List (Int × ProcessInfo)

/-- Map lookup: `monitored_processes.find(pid)`. -/
def tblLookup (pid : Int) (t : ProcTable) : Option ProcessInfo :=
  match t with
  | [] => none
  | (p, i) :: rest => if p = pid then some i else tblLookup pid rest

/-- `monitored_processes[pid] = info`: replace the mapped value if the key
is present, otherwise insert a new entry. -/
def tblInsert (pid : Int) (info : ProcessInfo) (t : ProcTable) : ProcTable :=
  match t with
  | [] => [(pid, info)]
  | (p, i) :: rest =>
      if p = pid then (p, info) :: rest else (p, i) :: tblInsert pid info rest

/-- `monitored_processes.erase(pid)`. -/
def tblErase (pid : Int) (t : ProcTable) : ProcTable :=
  t.filter (fun p => p.1 ≠ pid)

/-! ### ProcessMonitor: table accessors (part_001, lines 656-688) -/

/-- `ProcessMonitor::add_process`. -/
def add_process (pid : Int) (info : ProcessInfo) (t : ProcTable) : ProcTable :=
  tblInsert pid info t

/-- `ProcessMonitor::remove_process`. -/
def remove_process (pid : Int) (t : ProcTable) : ProcTable :=
  tblErase pid t

/-- `ProcessMonitor::get_process_info`: returns the stored record, or a
value-initialised `ProcessInfo()` when the identifier is not in the map. -/
def get_process_info (pid : Int) (t : ProcTable) : ProcessInfo :=
  match tblLookup pid t with
  | some i => i
  | none => ProcessInfo.default

/-- `ProcessMonitor::get_all_processes`. -/
def get_all_processes (t : ProcTable) : List ProcessInfo :=
  t.map (fun p => p.2)

/-! ### ProcessMonitor: signal operations (part_001, lines 709-731)

The three member functions below return `void` in the source; the only
caller-visible effects are the OS `kill` call and the log line.  They never
read or write `monitored_processes`, so the table passes through unchanged.
The OS `kill` outcome is the oracle `killOk pid sig`. -/

def SIGTERM : Int := 15
def SIGCONT : Int := 18
def SIGSTOP : Int := 19

/-- `ProcessMonitor::pause_process`. -/
def pause_process (killOk : Int → Int → Bool) (pid : Int) (t : ProcTable) :
    ProcTable × List LogMsg :=
  if killOk pid SIGSTOP then
    (t, [.info ("Paused process " ++ toString pid)])
  else
    (t, [.error ("Failed to pause process " ++ toString pid)])

/-- `ProcessMonitor::resume_process`. -/
def resume_process (killOk : Int → Int → Bool) (pid : Int) (t : ProcTable) :
    ProcTable × List LogMsg :=
  if killOk pid SIGCONT then
    (t, [.info ("Resumed process " ++ toString pid)])
  else
    (t, [.error ("Failed to resume process " ++ toString pid)])

/-- `ProcessMonitor::kill_process` (signal defaults to `SIGTERM`). -/
def kill_process (killOk : Int → Int → Bool) (pid : Int) (signal : Int)
    (t : ProcTable) : ProcTable × List LogMsg :=
  if killOk pid signal then
    (t, [.info ("Sent signal " ++ toString signal ++ " to process " ++ toString pid)])
  else
    (t, [.error ("Failed to send signal to process " ++ toString pid)])

/-- The spec's error taxonomy for the Signal Controller (spec §4.4/§7). -/
inductive SignalError where
  | ProcessNotFound
  | SignalDeliveryFailed
deriving DecidableEq, Repr

/-- Spec-side pause, written from the spec's words (§4.4) for comparison
with `pause_process` above: fail with `ProcessNotFound` if the identifier
is absent from the table, with `SignalDeliveryFailed` if the OS rejects the
signal, and otherwise set the record's state to `PAUSED` immediately. -/
def spec_pause (killOk : Int → Int → Bool) (pid : Int) (t : ProcTable) :
    Except SignalError ProcTable :=
  match tblLookup pid t with
  | none => .error .ProcessNotFound
  | some i =>
      if killOk pid SIGSTOP then
        .ok (tblInsert pid { i with state := .PAUSED } t)
      else
        .error .SignalDeliveryFailed

/-! ### ProcessMonitor: the monitor loop (part_001, lines 539-636)

One tick is the body of the `while (monitoring_active)` loop.  The OS is
the oracle `TickOracle`: `alive pid` is `kill(pid, 0) == 0`,
`vmRss pid` is the parsed `VmRSS:` value of `/proc/pid/status` (none when
the file cannot be opened or has no such line), and `statLine pid` is the
first line of `/proc/pid/stat` (none when the file cannot be opened). -/

structure TickOracle where
  alive : Int → Bool
  now : Nat
  vmRss : Int → Option Nat
  statLine : Int → Option (List Char)

/-- Index of the last occurrence of `c` (C++ `find_last_of` / `rfind`,
with `none` for `npos`). -/
def find_last_of (c : Char) (cs : List Char) : Option Nat :=
  match cs with
  | [] => none
  | x :: rest =>
      match find_last_of c rest with
      | some i => some (i + 1)
      | none => if x = c then some 0 else none

/-- Index of the first occurrence of `c` (C++ `find`). -/
def find_first_of (c : Char) (cs : List Char) : Option Nat :=
  match cs with
  | [] => none
  | x :: rest =>
      if x = c then some 0
      else
        match find_first_of c rest with
        | some i => some (i + 1)
        | none => none

/-- `ProcessMonitor::get_process_state`: parse the run-state character out
of the `/proc/pid/stat` line.  An unopenable file yields `STOPPED`;
missing parentheses yield `ERROR`; then the character two places past the
closing parenthesis is classified (R/S → RUNNING, T → PAUSED,
Z → STOPPED, anything else → RUNNING).  When that position is at or past
the end of the line the switch falls into its permissive default. -/
def get_process_state (statLine : Int → Option (List Char)) (pid : Int) :
    ProcessState :=
  match statLine pid with
  | none => .STOPPED
  | some line =>
      match find_first_of '(' line, find_last_of ')' line with
      | some _, some lastParen =>
          match (line.drop (lastParen + 2)).head? with
          | some 'R' => .RUNNING
          | some 'S' => .RUNNING
          | some 'T' => .PAUSED
          | some 'Z' => .STOPPED
          | _ => .RUNNING
      | _, _ => .ERROR

/-- `ProcessMonitor::calculate_cpu_usage`: both branches of the source
return `0.0`. -/
def calculate_cpu_usage (_pid : Int) : Nat := 0

/-- `ProcessMonitor::get_memory_usage`: the `VmRSS` kilobyte value times
1024, or 0 when unavailable. -/
def get_memory_usage (vmRss : Int → Option Nat) (pid : Int) : Nat :=
  match vmRss pid with
  | some v => v * 1024
  | none => 0

/-- `ProcessMonitor::update_process_stats`. -/
def update_process_stats (o : TickOracle) (info : ProcessInfo) : ProcessInfo :=
  { info with
      cpu_usage := calculate_cpu_usage info.pid
      memory_usage := get_memory_usage o.vmRss info.pid
      state := get_process_state o.statLine info.pid }

/-- One entry's treatment inside the tick: a dead process is set to
`STOPPED` with `end_time := now` and its (already mutated) record is
passed to `notify_state_change`; a live one gets its stats refreshed. -/
def monitor_step (o : TickOracle) (p : Int × ProcessInfo) :
    (Int × ProcessInfo) × List ProcessInfo :=
  if ¬ o.alive p.1 then
    let info := { p.2 with state := .STOPPED, end_time := o.now }
    ((p.1, info), [info])
  else
    ((p.1, update_process_stats o p.2), [])

/-- One tick of `ProcessMonitor::monitor_loop`: every entry of the map is
visited; the second component collects the `ProcessInfo` snapshots handed
to the state-change callbacks, in order.  Note that dead pids are only
collected into `dead_processes` for logging — nothing is erased. -/
def monitor_tick (o : TickOracle) (t : ProcTable) : ProcTable × List ProcessInfo :=
  (t.map (fun p => (monitor_step o p).1),
   t.flatMap (fun p => (monitor_step o p).2))

/-! ### Environment Builder (wine_executor.cpp, lines 34-73 and 147-213)

The source mutates the process-global environment through `setenv`; the
child then inherits a snapshot of `::environ`
(`build_environment_array`).  The environment is modelled as an ordered
key→value list and `setenv` as the corresponding update. -/

/-- `struct WineConfiguration` (the fields read by the executor).
`environment_variables` carries the entries of the `std::map` in its
iteration order (sorted, unique keys). -/
structure WineConfiguration where
  wine_prefix : String
  wine_binary : String
  architecture : WineArchitecture
  environment_variables : List (String × String)
  dll_overrides : List String
  virtual_desktop_resolution : String
  enable_virtual_desktop : Bool
  enable_csmt : Bool
  enable_dxvk : Bool
  enable_esync : Bool
  enable_fsync : Bool
  audio_driver : String
  graphics_driver : String
  nice_level : Int
  capture_stdout : Bool
  capture_stderr : Bool
deriving DecidableEq, Repr

/-- `WineConfiguration::WineConfiguration()` with the home directory as a
parameter (the source reads it from the OS). -/
def WineConfiguration.default (home : String) : WineConfiguration :=
  { wine_prefix := home ++ "/.wine"
    wine_binary := "wine"
    architecture := .AUTO_DETECT
    environment_variables := []
    dll_overrides := []
    virtual_desktop_resolution := ""
    enable_virtual_desktop := false
    enable_csmt := true
    enable_dxvk := false
    enable_esync := true
    enable_fsync := false
    audio_driver := "alsa"
    graphics_driver := "x11"
    nice_level := 0
    capture_stdout := true
    capture_stderr := true }

abbrev EnvMap := List (String × String)

/-- POSIX `setenv(name, value, overwrite)` on the modelled environment:
with `overwrite` an existing binding is replaced in place, without it an
existing binding is kept; an absent name is appended. -/
def setenv (name value : String) (overwrite : Bool) (env : EnvMap) : EnvMap :=
  match env with
  | [] => [(name, value)]
  | (k, v) :: rest =>
      if k = name then
        (if overwrite then (k, value) :: rest else (k, v) :: rest)
      else
        (k, v) :: setenv name value overwrite rest

/-- `WineExecutor::setup_environment` (custom is the `custom_environment`
member map, in iteration order). -/
def setup_environment (cfg : WineConfiguration) (custom : EnvMap)
    (env : EnvMap) : EnvMap :=
  let env := setenv "WINEPREFIX" cfg.wine_prefix true env
  let env :=
    match cfg.architecture with
    | .WIN32 => setenv "WINEARCH" "win32" true env
    | .WIN64 => setenv "WINEARCH" "win64" true env
    | .AUTO_DETECT => env
  let env :=
    if cfg.enable_virtual_desktop ∧ cfg.virtual_desktop_resolution ≠ "" then
      setenv "WINE_VD_RESOLUTION" cfg.virtual_desktop_resolution true env
    else env
  let env := if cfg.enable_csmt then setenv "CSMT" "enabled" true env else env
  let env := if cfg.enable_esync then setenv "WINEESYNC" "1" true env else env
  let env := if cfg.enable_fsync then setenv "WINEFSYNC" "1" true env else env
  let env :=
    if cfg.audio_driver ≠ "" then
      setenv "WINEDLLOVERRIDES" "winemapi.dll=n,b" true env
    else env
  let env := custom.foldl (fun e p => setenv p.1 p.2 true e) env
  cfg.environment_variables.foldl (fun e p => setenv p.1 p.2 true e) env

/-- `WineExecutor::setup_dll_overrides`: join the override list with `;`
and overwrite `WINEDLLOVERRIDES` (only when the list is nonempty). -/
def setup_dll_overrides (cfg : WineConfiguration) (env : EnvMap) : EnvMap :=
  if cfg.dll_overrides ≠ [] then
    setenv "WINEDLLOVERRIDES" (String.intercalate ";" cfg.dll_overrides) true env
  else env

/-- `WineExecutor::setup_graphics_environment` (all `setenv` calls use
overwrite = 0). -/
def setup_graphics_environment (cfg : WineConfiguration) (env : EnvMap) : EnvMap :=
  let env :=
    if cfg.graphics_driver = "x11" then setenv "DISPLAY" ":0" false env
    else if cfg.graphics_driver = "wayland" then
      setenv "WAYLAND_DISPLAY" "wayland-0" false env
    else env
  if cfg.enable_dxvk then setenv "DXVK_HUD" "devinfo,fps" false env else env

/-- `WineExecutor::setup_audio_environment` (overwrite = 1). -/
def setup_audio_environment (cfg : WineConfiguration) (env : EnvMap) : EnvMap :=
  if cfg.audio_driver = "alsa" then setenv "WINE_AUDIO_DRIVER" "alsa" true env
  else if cfg.audio_driver = "pulse" then setenv "WINE_AUDIO_DRIVER" "pulse" true env
  else if cfg.audio_driver = "oss" then setenv "WINE_AUDIO_DRIVER" "oss" true env
  else env

/-- The environment the spawned child inherits: `execute` calls
`setup_environment`, then `setup_dll_overrides`,
`setup_graphics_environment` and `setup_audio_environment`, in that order
(wine_executor.cpp lines 304-308), and the child snapshots `::environ`. -/
def assembled_environment (cfg : WineConfiguration) (custom : EnvMap)
    (env0 : EnvMap) : EnvMap :=
  setup_audio_environment cfg
    (setup_graphics_environment cfg
      (setup_dll_overrides cfg
        (setup_environment cfg custom env0)))

/-! ### Launch Pipeline (wine_executor.cpp, lines 163-375) -/

/-- `Utils::get_extension`: the substring from the last dot, but only when
a dot exists and its index is greater than the index of the last slash.
When the path has no slash at all, `find_last_of('/')` is `npos` (the
largest `size_t`), so the comparison `dot_pos > slash_pos` is false and
the extension comes back empty. -/
def get_extension (path : String) : String :=
  let cs := path.toList
  match find_last_of '.' cs with
  | none => ""
  | some d =>
      match find_last_of '/' cs with
      | none => ""
      | some s => if d > s then String.mk (cs.drop d) else ""

/-- `WineExecutor::resolve_path`: empty stays empty, a leading `~` is
replaced by the home directory, a relative path is prefixed with the
current working directory. -/
def resolve_path (home cwd : String) (path : String) : String :=
  if path = "" then path
  else if path.toList.head? = some '~' then home ++ path.drop 1
  else if path.toList.head? ≠ some '/' then cwd ++ "/" ++ path
  else path

/-- `WineExecutor::validate_executable`: fails (with an error log) only
when `Utils::file_exists` — `stat` succeeding on a regular file — is
false; an extension outside `.exe`/`.msi`/`.bat` (case-insensitively)
only produces a warning. -/
def validate_executable (fileExists : String → Bool) (exe_path : String) :
    Bool × List LogMsg :=
  if ¬ fileExists exe_path then
    (false, [.error ("Executable not found: " ++ exe_path)])
  else
    let ext := String.mk ((get_extension exe_path).toList.map Char.toLower)
    if ext ≠ ".exe" ∧ ext ≠ ".msi" ∧ ext ≠ ".bat" then
      (true, [.warning ("Unexpected file extension: " ++ ext)])
    else
      (true, [])

/-- The termination status `waitpid` reports for a child. -/
inductive WaitStatus where
  | exited (code : Nat)
  | signaled (sig : Nat)
  | other
deriving DecidableEq, Repr

/-- `WineExecutor::wait_for_process`: decode the status — the exit code on
a normal exit, the negated signal number on a signal termination, `-1`
otherwise. -/
def wait_for_process (ws : WaitStatus) : Int :=
  match ws with
  | .exited code => code
  | .signaled sig => -(sig : Int)
  | .other => -1

/-- Observable milestones of a launch, in program order. -/
inductive ExecEvent where
  | preHook (cmd : String)
  | forked (pid : Int)
  | registered (pid : Int)
  | waited (pid : Int)
  | postHook (cmd : String)
deriving DecidableEq, Repr

/-- The OS behaviour a single `execute` call encounters. -/
structure ExecOracle where
  home : String
  cwd : String
  fileExists : String → Bool
  pipeOk : Bool
  forkPid : Option Int
  now : Nat

/-- `WineExecutor::execute`: resolve the path, validate it, run the
pre-launch hooks (best effort — `execute_pre_launch_commands` always
returns true), mutate the environment, set up the capture pipes, fork,
and on success register a `ProcessInfo` in `STARTING` state with the
monitor.  Returns the child pid, or `-1` on any failure, together with
the updated table and the event trace.  `pipeOk` stands for both `pipe()`
calls succeeding; `forkPid = none` is `fork()` returning `-1`. -/
def execute (o : ExecOracle) (cfg : WineConfiguration)
    (preCmds : List String) (exe_path : String) (arguments : List String)
    (t : ProcTable) : Int × ProcTable × List ExecEvent :=
  let resolved := resolve_path o.home o.cwd exe_path
  if ¬ (validate_executable o.fileExists resolved).1 then
    (-1, t, [])
  else
    let preEvents := preCmds.map ExecEvent.preHook
    if ¬ o.pipeOk then
      (-1, t, preEvents)
    else
      match o.forkPid with
      | none => (-1, t, preEvents)
      | some pid =>
          let info : ProcessInfo :=
            { ProcessInfo.default with
                pid := pid
                state := .STARTING
                executable_path := resolved
                arguments := arguments
                start_time := o.now
                exit_code := 0
                wine_prefix := cfg.wine_prefix
                architecture := cfg.architecture }
          (pid, add_process pid info t,
           preEvents ++ [.forked pid, .registered pid])

/-- `WineExecutor::execute_async`: launch and report only whether the pid
is positive. -/
def execute_async (o : ExecOracle) (cfg : WineConfiguration)
    (preCmds : List String) (exe_path : String) (arguments : List String)
    (t : ProcTable) : Bool × ProcTable × List ExecEvent :=
  let r := execute o cfg preCmds exe_path arguments t
  (r.1 > 0, r.2.1, r.2.2)

/-- `WineExecutor::execute_sync`: launch; on failure return `-1`; on
success wait for the child, decode its termination, run the post-launch
hooks, and return the decoded code.  `ws` is the status `waitpid`
eventually reports. -/
def execute_sync (o : ExecOracle) (ws : WaitStatus) (cfg : WineConfiguration)
    (preCmds postCmds : List String) (exe_path : String)
    (arguments : List String) (t : ProcTable) :
    Int × ProcTable × List ExecEvent :=
  let r := execute o cfg preCmds exe_path arguments t
  if r.1 ≤ 0 then
    (-1, r.2.1, r.2.2)
  else
    (wait_for_process ws, r.2.1,
     r.2.2 ++ [.waited r.1] ++ postCmds.map ExecEvent.postHook)

/-- Lookup in the modelled environment (`getenv`). -/
def envLookup (k : String) (env : EnvMap) : Option String :=
  match env with
  | [] => none
  | (n, v) :: rest => if n = k then some v else envLookup k rest

/-! ### Helper lemmas -/

theorem tblLookup_insert_self (pid : Int) (i : ProcessInfo) (t : ProcTable) :
    tblLookup pid (tblInsert pid i t) = some i := by
  induction t with
  | nil => simp [tblInsert, tblLookup]
  | cons p rest ih =>
      obtain ⟨k, v⟩ := p
      by_cases h : k = pid
      · simp [tblInsert, tblLookup, h]
      · simp [tblInsert, tblLookup, h, ih]

theorem tblLookup_erase_self (pid : Int) (t : ProcTable) :
    tblLookup pid (tblErase pid t) = none := by
  induction t with
  | nil => simp [tblErase, tblLookup]
  | cons p rest ih =>
      obtain ⟨k, v⟩ := p
      by_cases h : k = pid
      · simpa [tblErase, h] using ih
      · simpa [tblErase, tblLookup, h] using ih

theorem pause_process_fst (killOk : Int → Int → Bool) (pid : Int) (t : ProcTable) :
    (pause_process killOk pid t).1 = t := by
  unfold pause_process; split <;> rfl

theorem resume_process_fst (killOk : Int → Int → Bool) (pid : Int) (t : ProcTable) :
    (resume_process killOk pid t).1 = t := by
  unfold resume_process; split <;> rfl

theorem kill_process_fst (killOk : Int → Int → Bool) (pid sig : Int) (t : ProcTable) :
    (kill_process killOk pid sig t).1 = t := by
  unfold kill_process; split <;> rfl

theorem pause_process_snd_const (killOk : Int → Int → Bool) (pid : Int)
    (t t' : ProcTable) : (pause_process killOk pid t).2 = (pause_process killOk pid t').2 := by
  unfold pause_process; split <;> rfl

theorem resume_process_snd_const (killOk : Int → Int → Bool) (pid : Int)
    (t t' : ProcTable) : (resume_process killOk pid t).2 = (resume_process killOk pid t').2 := by
  unfold resume_process; split <;> rfl

theorem kill_process_snd_const (killOk : Int → Int → Bool) (pid sig : Int)
    (t t' : ProcTable) : (kill_process killOk pid sig t).2 = (kill_process killOk pid sig t').2 := by
  unfold kill_process; split <;> rfl

/-! ### C1 -/

/-- C1, counterexample.  Identifier 42 is absent from the (empty) Process
Table, yet every signal operation completes: each leaves the table
unchanged and — when the OS accepts the signal, which happens whenever
pid 42 exists in the OS without being tracked — even logs success.  The
return type of the three member functions is `void`, so no
`ProcessNotFound` (or any error value) reaches the caller, in contrast
with the spec-side `spec_pause`, which does fail with `ProcessNotFound`
on the same input. -/
theorem signal_unknown_pid_completes_without_error :
    tblLookup 42 ([] : ProcTable) = none ∧
    pause_process (fun _ _ => true) 42 [] = ([], [.info "Paused process 42"]) ∧
    resume_process (fun _ _ => true) 42 [] = ([], [.info "Resumed process 42"]) ∧
    kill_process (fun _ _ => true) 42 SIGTERM [] =
      ([], [.info "Sent signal 15 to process 42"]) ∧
    spec_pause (fun _ _ => true) 42 [] = .error .ProcessNotFound := by
  refine ⟨rfl, ?_, ?_, ?_, rfl⟩ <;> rfl

/-- C1, amended.  The signal operations never consult the Process Table:
for any identifier, known or unknown, they leave the table unchanged and
their only output is a log line whose content is independent of the
table, so a caller gets no `ProcessNotFound` — an unknown identifier is a
silent no-op apart from logging. -/
theorem signal_ops_ignore_table_and_return_no_error (killOk : Int → Int → Bool)
    (pid sig : Int) (t : ProcTable) :
    (pause_process killOk pid t).1 = t ∧
    (resume_process killOk pid t).1 = t ∧
    (kill_process killOk pid sig t).1 = t ∧
    (pause_process killOk pid t).2 = (pause_process killOk pid []).2 ∧
    (resume_process killOk pid t).2 = (resume_process killOk pid []).2 ∧
    (kill_process killOk pid sig t).2 = (kill_process killOk pid sig []).2 :=
  ⟨pause_process_fst killOk pid t, resume_process_fst killOk pid t,
   kill_process_fst killOk pid sig t, pause_process_snd_const killOk pid t [],
   resume_process_snd_const killOk pid t [], kill_process_snd_const killOk pid sig t []⟩

/-! ### C2 -/

/-- C2, counterexample.  Process 7 is tracked in state `RUNNING`; the OS
accepts the stop signal, so the pause succeeds — yet a query issued right
after the call still reports `RUNNING`, not `PAUSED`: `pause_process`
never writes the record's state. -/
theorem pause_then_query_still_running :
    (get_process_info 7
      ((pause_process (fun _ _ => true) 7
        [(7, { ProcessInfo.default with pid := 7, state := .RUNNING })]).1)).state =
      .RUNNING ∧
    ProcessState.RUNNING ≠ ProcessState.PAUSED := by
  exact ⟨rfl, by decide⟩

/-- C2, amended.  A successful pause or resume performs no state update at
all: the Process Table is untouched, so any query issued after the call
and before the next Monitor Loop tick returns exactly what it returned
before the call (the stale state), for every tracked or untracked
identifier. -/
theorem signal_ops_leave_query_results_unchanged (killOk : Int → Int → Bool)
    (pid q : Int) (t : ProcTable) :
    get_process_info q ((pause_process killOk pid t).1) = get_process_info q t ∧
    get_process_info q ((resume_process killOk pid t).1) = get_process_info q t := by
  rw [pause_process_fst, resume_process_fst]
  exact ⟨rfl, rfl⟩

theorem monitor_step_fst (o : TickOracle) (p : Int × ProcessInfo) :
    ((monitor_step o p).1).1 = p.1 := by
  unfold monitor_step; split <;> rfl

theorem tblLookup_monitor_tick (o : TickOracle) (pid : Int) (t : ProcTable) :
    tblLookup pid (monitor_tick o t).1 =
      Option.map (fun i => ((monitor_step o (pid, i)).1).2) (tblLookup pid t) := by
  induction t with
  | nil => rfl
  | cons p rest ih =>
      obtain ⟨k, i⟩ := p
      by_cases h : k = pid
      · subst h
        simp only [monitor_tick, List.map_cons, tblLookup]
        rw [monitor_step_fst]
        simp [tblLookup]
      · simp only [monitor_tick, List.map_cons, tblLookup]
        rw [monitor_step_fst]
        simp only [h, if_false]
        exact ih

theorem monitor_step_snd_length (o : TickOracle) (p : Int × ProcessInfo) :
    (monitor_step o p).2.length = if o.alive p.1 then 0 else 1 := by
  unfold monitor_step
  by_cases h : o.alive p.1 <;> simp [h]

theorem tick_notifs_length (o : TickOracle) (t : ProcTable) :
    (monitor_tick o t).2.length = (t.filter (fun p => ! o.alive p.1)).length := by
  induction t with
  | nil => rfl
  | cons p rest ih =>
      simp only [monitor_tick, List.flatMap_cons, List.length_append,
        List.filter_cons] at *
      rw [monitor_step_snd_length]
      by_cases h : o.alive p.1
      · simp [h, ih]
      · simp [h, ih, Nat.add_comm]

/-! ### C3 -/

/-- A tick oracle under which every probed process is dead. -/
def deadOracle (now : Nat) : TickOracle :=
  { alive := fun _ => false, now := now, vmRss := fun _ => none,
    statLine := fun _ => none }

/-- C3, counterexample.  Process 5 dies before the tick at time 10: the
first tick sets `STOPPED`/`end_time = 10` and notifies once.  The record
stays in the table, so the next tick (time 20) mutates the terminal
record again — `end_time` is overwritten to 20 — and a second observer
notification is emitted: across two ticks, one death produces two
notifications and two `end_time` writes. -/
theorem dead_process_renotified_every_tick :
    (get_process_info 5
      (monitor_tick (deadOracle 10)
        [(5, { ProcessInfo.default with pid := 5, state := .RUNNING })]).1).state =
      .STOPPED ∧
    (get_process_info 5
      (monitor_tick (deadOracle 10)
        [(5, { ProcessInfo.default with pid := 5, state := .RUNNING })]).1).end_time = 10 ∧
    (get_process_info 5
      (monitor_tick (deadOracle 20)
        (monitor_tick (deadOracle 10)
          [(5, { ProcessInfo.default with pid := 5, state := .RUNNING })]).1).1).end_time = 20 ∧
    (monitor_tick (deadOracle 10)
        [(5, { ProcessInfo.default with pid := 5, state := .RUNNING })]).2.length +
      (monitor_tick (deadOracle 20)
        (monitor_tick (deadOracle 10)
          [(5, { ProcessInfo.default with pid := 5, state := .RUNNING })]).1).2.length = 2 := by
  refine ⟨rfl, rfl, rfl, rfl⟩

/-- C3, amended.  Terminal records are not left alone: on every tick, each
entry whose pid fails the liveness probe — whether or not it is already
`STOPPED` — is re-transitioned: its state is (re)set to `STOPPED`, its
`end_time` is overwritten with the current tick's time, and one observer
notification is emitted for it on that tick (so a dead process that stays
in the table is notified on every tick, not exactly once). -/
theorem monitor_tick_retransitions_dead_entries (o : TickOracle) (t : ProcTable)
    (pid : Int) (info : ProcessInfo) (h1 : tblLookup pid t = some info)
    (h2 : o.alive pid = false) :
    tblLookup pid (monitor_tick o t).1 =
      some { info with state := .STOPPED, end_time := o.now } ∧
    (monitor_tick o t).2.length = (t.filter (fun p => ! o.alive p.1)).length := by
  constructor
  · rw [tblLookup_monitor_tick, h1]
    simp [monitor_step, h2]
  · exact tick_notifs_length o t

/-- C3 witness: the amended theorem applied to the one-entry table of the
counterexample, at tick time 10. -/
theorem monitor_tick_retransitions_dead_entries_witness :
    tblLookup 5 (monitor_tick (deadOracle 10)
        [(5, { ProcessInfo.default with pid := 5, state := .RUNNING })]).1 =
      some { ProcessInfo.default with pid := 5, state := .STOPPED, end_time := 10 } ∧
    (monitor_tick (deadOracle 10)
        [(5, { ProcessInfo.default with pid := 5, state := .RUNNING })]).2.length =
      ([(5, { ProcessInfo.default with pid := 5, state := .RUNNING })].filter
        (fun p => ! (deadOracle 10).alive p.1)).length :=
  monitor_tick_retransitions_dead_entries (deadOracle 10)
    [(5, { ProcessInfo.default with pid := 5, state := .RUNNING })] 5
    { ProcessInfo.default with pid := 5, state := .RUNNING } rfl rfl

/-! ### C8 -/

/-- C8.  The Monitor Loop never removes an entry: a tick maps each entry
to an entry with the same pid, so the table's key sequence (and hence the
length of `get_all_processes`) is unchanged by any number of ticks; only
`remove_process` deletes an identifier from the table. -/
theorem monitor_tick_preserves_table_membership (o : TickOracle) (t : ProcTable)
    (pid : Int) :
    (monitor_tick o t).1.map Prod.fst = t.map Prod.fst ∧
    (get_all_processes (monitor_tick o t).1).length = (get_all_processes t).length ∧
    tblLookup pid (remove_process pid t) = none := by
  refine ⟨?_, ?_, tblLookup_erase_self pid t⟩
  · show (t.map fun p => (monitor_step o p).1).map Prod.fst = t.map Prod.fst
    rw [List.map_map]
    exact List.map_congr_left fun p _ => monitor_step_fst o p
  · simp [get_all_processes, monitor_tick]

/-! ### C9 -/

/-- C9.  For an identifier absent from the table, `get_process_info`
returns a value-initialised `ProcessInfo()` instead of an error — the
very same value it returns for an identifier that is tracked with a
default record, so the call's outcome alone cannot distinguish the two
situations. -/
theorem get_process_info_unknown_returns_default (pid : Int) (t : ProcTable)
    (h : tblLookup pid t = none) :
    get_process_info pid t = ProcessInfo.default ∧
    get_process_info pid (add_process pid ProcessInfo.default t) =
      ProcessInfo.default := by
  constructor
  · unfold get_process_info
    rw [h]
  · unfold get_process_info add_process
    rw [tblLookup_insert_self]

/-- C9 witness: the theorem applied to identifier 42 and the empty
table. -/
theorem get_process_info_unknown_returns_default_witness :
    get_process_info 42 [] = ProcessInfo.default ∧
    get_process_info 42 (add_process 42 ProcessInfo.default []) =
      ProcessInfo.default :=
  get_process_info_unknown_returns_default 42 [] rfl

/-! ### C10 -/

/-- C10.  For an existing regular file, `validate_executable` always
returns true; when the lower-cased extension is not `.exe`, `.msi` or
`.bat` the only output besides the successful result is one warning log
line — an unexpected extension never fails validation. -/
theorem validate_executable_ignores_extension (fileExists : String → Bool)
    (path : String) (h : fileExists path = true) :
    (validate_executable fileExists path).1 = true ∧
    (∀ ext, ext = String.mk ((get_extension path).toList.map Char.toLower) →
      ext ≠ ".exe" → ext ≠ ".msi" → ext ≠ ".bat" →
      (validate_executable fileExists path).2 =
        [.warning ("Unexpected file extension: " ++ ext)]) := by
  have hne : ¬ (¬ fileExists path = true) := by simp [h]
  unfold validate_executable
  rw [if_neg hne]
  dsimp only
  constructor
  · split <;> rfl
  · intro ext hext h1 h2 h3
    subst hext
    rw [if_pos ⟨h1, h2, h3⟩]

/-- C10 witness: an existing file with extension `.xyz` passes validation
and yields exactly the warning line. -/
theorem validate_executable_ignores_extension_witness :
    (validate_executable (fun _ => true) "/tmp/a.xyz").1 = true ∧
    (∀ ext,
      ext = String.mk ((get_extension "/tmp/a.xyz").toList.map Char.toLower) →
      ext ≠ ".exe" → ext ≠ ".msi" → ext ≠ ".bat" →
      (validate_executable (fun _ => true) "/tmp/a.xyz").2 =
        [.warning ("Unexpected file extension: " ++ ext)]) :=
  validate_executable_ignores_extension (fun _ => true) "/tmp/a.xyz" rfl

/-! ### C4 -/

/-- C4, counterexample.  A successful asynchronous launch of
`/tmp/app.exe` (the file exists, the pipes open, `fork` returns pid 5)
registers the new record immediately — but in state `STARTING`, not
`RUNNING`: `list_processes` right after the call shows `STARTING`. -/
theorem async_launch_registers_starting_not_running :
    (execute
        { home := "/h", cwd := "/w", fileExists := fun _ => true,
          pipeOk := true, forkPid := some 5, now := 3 }
        (WineConfiguration.default "/h") [] "/tmp/app.exe" [] []).1 = 5 ∧
    (get_all_processes
      (execute
        { home := "/h", cwd := "/w", fileExists := fun _ => true,
          pipeOk := true, forkPid := some 5, now := 3 }
        (WineConfiguration.default "/h") [] "/tmp/app.exe" [] []).2.1).map
        ProcessInfo.state = [.STARTING] ∧
    ProcessState.STARTING ≠ ProcessState.RUNNING := by
  refine ⟨rfl, rfl, by decide⟩

/-- C4, amended.  After a successful asynchronous launch the new record is
in the Process Table before any Monitor Loop tick (insertion happens in
`execute` itself), with the resolved path, arguments and start timestamp
— but its state is `STARTING`: it is the first tick's
`update_process_stats` that later recomputes the state from the OS, not
the registration. -/
theorem execute_registers_record_in_starting_state (o : ExecOracle)
    (cfg : WineConfiguration) (pre : List String) (path : String)
    (args : List String) (t : ProcTable) (pid : Int)
    (hv : (validate_executable o.fileExists (resolve_path o.home o.cwd path)).1 = true)
    (hp : o.pipeOk = true) (hf : o.forkPid = some pid) :
    (execute o cfg pre path args t).1 = pid ∧
    tblLookup pid (execute o cfg pre path args t).2.1 =
      some { ProcessInfo.default with
               pid := pid
               state := .STARTING
               executable_path := resolve_path o.home o.cwd path
               arguments := args
               start_time := o.now
               exit_code := 0
               wine_prefix := cfg.wine_prefix
               architecture := cfg.architecture } ∧
    (get_process_info pid (execute o cfg pre path args t).2.1).state = .STARTING := by
  unfold execute
  dsimp only
  rw [if_neg (by simp [hv]), if_neg (by simp [hp]), hf]
  refine ⟨rfl, ?_, ?_⟩
  · simp [add_process, tblLookup_insert_self]
  · simp [get_process_info, add_process, tblLookup_insert_self]

/-- C4 witness: the amended theorem at the counterexample's inputs. -/
theorem execute_registers_record_in_starting_state_witness :
    (execute
        { home := "/h", cwd := "/w", fileExists := fun _ => true,
          pipeOk := true, forkPid := some 5, now := 3 }
        (WineConfiguration.default "/h") [] "/tmp/app.exe" [] []).1 = 5 ∧
    tblLookup 5 (execute
        { home := "/h", cwd := "/w", fileExists := fun _ => true,
          pipeOk := true, forkPid := some 5, now := 3 }
        (WineConfiguration.default "/h") [] "/tmp/app.exe" [] []).2.1 =
      some { ProcessInfo.default with
               pid := 5
               state := .STARTING
               executable_path :=
                 resolve_path "/h" "/w" "/tmp/app.exe"
               arguments := []
               start_time := 3
               exit_code := 0
               wine_prefix := "/h/.wine"
               architecture := .AUTO_DETECT } ∧
    (get_process_info 5 (execute
        { home := "/h", cwd := "/w", fileExists := fun _ => true,
          pipeOk := true, forkPid := some 5, now := 3 }
        (WineConfiguration.default "/h") [] "/tmp/app.exe" [] []).2.1).state =
      .STARTING :=
  execute_registers_record_in_starting_state
    { home := "/h", cwd := "/w", fileExists := fun _ => true,
      pipeOk := true, forkPid := some 5, now := 3 }
    (WineConfiguration.default "/h") [] "/tmp/app.exe" [] [] 5 rfl rfl rfl

/-! ### C6 -/

/-- The §4.2 path-validation contract exactly as claimed, with a
readability predicate `re` alongside the existence check `fe` (the OS's
read-permission bit, which the source never queries): whenever the
resolved path is not both an existing regular file and readable, the
launch returns `-1` and the table is unchanged. -/
def launch_rejects_unreadable : Prop :=
  ∀ (fe re : String → Bool) (home cwd : String) (pok : Bool) (fk : Option Int)
    (now : Nat) (cfg : WineConfiguration) (pre : List String) (path : String)
    (args : List String) (t : ProcTable),
    ¬ (fe (resolve_path home cwd path) = true ∧
       re (resolve_path home cwd path) = true) →
    (execute { home := home, cwd := cwd, fileExists := fe, pipeOk := pok,
               forkPid := fk, now := now } cfg pre path args t).1 = -1 ∧
    (execute { home := home, cwd := cwd, fileExists := fe, pipeOk := pok,
               forkPid := fk, now := now } cfg pre path args t).2.1 = t

/-- C6, counterexample.  The claim quantifies over readability, but
`validate_executable` only checks `Utils::file_exists` (`stat` on a
regular file).  Instantiating the readability predicate as everywhere
false — an existing file with no read permission — the launch still goes
through: `execute` returns pid 5 and registers a record, refuting the
claim as stated. -/
theorem launch_ignores_readability : ¬ launch_rejects_unreadable := by
  intro h
  have h2 := h (fun _ => true) (fun _ => false) "/h" "/w" true (some 5) 0
    (WineConfiguration.default "/h") [] "/tmp/app.exe" [] [] (by simp)
  have h3 : (execute ⟨"/h", "/w", (fun _ => true), true, some 5, 0⟩
      (WineConfiguration.default "/h") [] "/tmp/app.exe" [] []).1 = 5 := rfl
  rw [h3] at h2
  exact absurd h2.1 (by decide)

/-- C6, amended.  When the resolved path (home marker expanded, relative
paths resolved against the working directory) does not pass
`Utils::file_exists` — it does not reference an existing regular file —
the launch fails with the code's single error value `-1` and registers
nothing: the table, and hence `list_processes`, is unchanged.
Readability is never checked. -/
theorem launch_nonexistent_path_fails_and_registers_nothing (o : ExecOracle)
    (cfg : WineConfiguration) (pre : List String) (path : String)
    (args : List String) (t : ProcTable)
    (h : o.fileExists (resolve_path o.home o.cwd path) = false) :
    (execute o cfg pre path args t).1 = -1 ∧
    (execute o cfg pre path args t).2.1 = t ∧
    get_all_processes (execute o cfg pre path args t).2.1 =
      get_all_processes t := by
  unfold execute validate_executable
  simp [h]

/-- C6 witness: the amended theorem applied to a path no file system
entry matches. -/
theorem launch_nonexistent_path_fails_witness :
    (execute
        { home := "/h", cwd := "/w", fileExists := fun _ => false,
          pipeOk := true, forkPid := some 5, now := 0 }
        (WineConfiguration.default "/h") [] "/tmp/missing.exe" [] []).1 = -1 ∧
    (execute
        { home := "/h", cwd := "/w", fileExists := fun _ => false,
          pipeOk := true, forkPid := some 5, now := 0 }
        (WineConfiguration.default "/h") [] "/tmp/missing.exe" [] []).2.1 = [] ∧
    get_all_processes (execute
        { home := "/h", cwd := "/w", fileExists := fun _ => false,
          pipeOk := true, forkPid := some 5, now := 0 }
        (WineConfiguration.default "/h") [] "/tmp/missing.exe" [] []).2.1 =
      get_all_processes [] :=
  launch_nonexistent_path_fails_and_registers_nothing
    { home := "/h", cwd := "/w", fileExists := fun _ => false,
      pipeOk := true, forkPid := some 5, now := 0 }
    (WineConfiguration.default "/h") [] "/tmp/missing.exe" [] [] rfl

theorem execute_trace_no_postHook (o : ExecOracle) (cfg : WineConfiguration)
    (pre : List String) (path : String) (args : List String) (t : ProcTable)
    (c : String) : ExecEvent.postHook c ∉ (execute o cfg pre path args t).2.2 := by
  unfold execute
  dsimp only
  split
  · simp
  · split
    · simp
    · match o.forkPid with
      | none => simp
      | some pid => simp

/-! ### C7 -/

/-- C7.  A successful synchronous launch returns the decoded termination
of the child — the exit code on a normal exit, the negated terminating
signal on a signal death — and its event trace places the wait on the
child strictly before every post-launch hook; the asynchronous variant
never runs a post-launch hook at all, on any input. -/
theorem execute_sync_decodes_and_runs_post_hooks (o : ExecOracle)
    (ws : WaitStatus) (cfg : WineConfiguration) (pre post : List String)
    (path : String) (args : List String) (t : ProcTable) (pid : Int)
    (hv : (validate_executable o.fileExists (resolve_path o.home o.cwd path)).1 = true)
    (hp : o.pipeOk = true) (hf : o.forkPid = some pid) (hpos : 0 < pid) :
    (execute_sync o ws cfg pre post path args t).1 = wait_for_process ws ∧
    (execute_sync o ws cfg pre post path args t).2.2 =
      pre.map ExecEvent.preHook ++ [.forked pid, .registered pid] ++
        [.waited pid] ++ post.map ExecEvent.postHook ∧
    (∀ n, ws = .exited n → (execute_sync o ws cfg pre post path args t).1 = (n : Int)) ∧
    (∀ s, ws = .signaled s →
      (execute_sync o ws cfg pre post path args t).1 = -(s : Int)) ∧
    (∀ (o' : ExecOracle) (cfg' : WineConfiguration) (pre' : List String)
       (path' : String) (args' : List String) (t' : ProcTable) (c : String),
      ExecEvent.postHook c ∉ (execute_async o' cfg' pre' path' args' t').2.2) := by
  have hex : execute o cfg pre path args t =
      (pid, add_process pid
        { ProcessInfo.default with
            pid := pid
            state := .STARTING
            executable_path := resolve_path o.home o.cwd path
            arguments := args
            start_time := o.now
            exit_code := 0
            wine_prefix := cfg.wine_prefix
            architecture := cfg.architecture } t,
        pre.map ExecEvent.preHook ++ [.forked pid, .registered pid]) := by
    unfold execute
    dsimp only
    rw [if_neg (by simp [hv]), if_neg (by simp [hp]), hf]
  have hnle : ¬ ((execute o cfg pre path args t).1 ≤ 0) := by
    rw [hex]
    exact Int.not_le.mpr hpos
  refine ⟨?_, ?_, ?_, ?_, ?_⟩
  · unfold execute_sync
    rw [if_neg hnle]
  · unfold execute_sync
    rw [if_neg hnle]
    dsimp only
    rw [hex]
  · intro n hn
    unfold execute_sync
    rw [if_neg hnle, hn]
    rfl
  · intro s hs
    unfold execute_sync
    rw [if_neg hnle, hs]
    rfl
  · intro o' cfg' pre' path' args' t' c
    unfold execute_async
    exact execute_trace_no_postHook o' cfg' pre' path' args' t' c

/-- C7 witness: a synchronous launch whose child is killed by signal 9
returns `-9`, with the post-launch hook after the wait in the trace. -/
theorem execute_sync_decodes_and_runs_post_hooks_witness :
    (execute_sync ⟨"/h", "/w", (fun _ => true), true, some 7, 1⟩
      (.signaled 9) (WineConfiguration.default "/h") ["pre"] ["post"]
      "/tmp/app.exe" [] []).1 = wait_for_process (.signaled 9) ∧
    (execute_sync ⟨"/h", "/w", (fun _ => true), true, some 7, 1⟩
      (.signaled 9) (WineConfiguration.default "/h") ["pre"] ["post"]
      "/tmp/app.exe" [] []).2.2 =
      ["pre"].map ExecEvent.preHook ++ [.forked 7, .registered 7] ++
        [.waited 7] ++ ["post"].map ExecEvent.postHook ∧
    (∀ n, WaitStatus.signaled 9 = .exited n →
      (execute_sync ⟨"/h", "/w", (fun _ => true), true, some 7, 1⟩
        (.signaled 9) (WineConfiguration.default "/h") ["pre"] ["post"]
        "/tmp/app.exe" [] []).1 = (n : Int)) ∧
    (∀ s, WaitStatus.signaled 9 = .signaled s →
      (execute_sync ⟨"/h", "/w", (fun _ => true), true, some 7, 1⟩
        (.signaled 9) (WineConfiguration.default "/h") ["pre"] ["post"]
        "/tmp/app.exe" [] []).1 = -(s : Int)) ∧
    (∀ (o' : ExecOracle) (cfg' : WineConfiguration) (pre' : List String)
       (path' : String) (args' : List String) (t' : ProcTable) (c : String),
      ExecEvent.postHook c ∉ (execute_async o' cfg' pre' path' args' t').2.2) :=
  execute_sync_decodes_and_runs_post_hooks
    ⟨"/h", "/w", (fun _ => true), true, some 7, 1⟩ (.signaled 9)
    (WineConfiguration.default "/h") ["pre"] ["post"] "/tmp/app.exe" [] [] 7
    rfl rfl rfl (by decide)

theorem envLookup_setenv_self (n v : String) (env : EnvMap) :
    envLookup n (setenv n v true env) = some v := by
  induction env with
  | nil => simp [setenv, envLookup]
  | cons p rest ih =>
      obtain ⟨k, w⟩ := p
      by_cases h : k = n
      · simp [setenv, envLookup, h]
      · simp [setenv, envLookup, h, ih]

theorem envLookup_setenv_ne (k n v : String) (ow : Bool) (env : EnvMap)
    (h : k ≠ n) : envLookup k (setenv n v ow env) = envLookup k env := by
  have h' : ¬ n = k := fun hh => h hh.symm
  induction env with
  | nil => simp [setenv, envLookup, h']
  | cons p rest ih =>
      obtain ⟨k', w⟩ := p
      by_cases h1 : k' = n
      · subst h1
        cases ow <;> simp [setenv, envLookup, h']
      · simp only [setenv, if_neg h1]
        by_cases h2 : k' = k <;> simp [envLookup, h2, ih]

theorem envLookup_setenv_keep (k n v w : String) (env : EnvMap)
    (h : envLookup k env = some w) :
    envLookup k (setenv n v false env) = some w := by
  by_cases hkn : k = n
  · subst hkn
    induction env with
    | nil => simp [envLookup] at h
    | cons p rest ih =>
        obtain ⟨k', u⟩ := p
        by_cases h1 : k' = k
        · simp [envLookup, h1] at h
          simp [setenv, envLookup, h1, h]
        · simp [envLookup, h1] at h
          simp [setenv, envLookup, h1, ih h]
  · rw [envLookup_setenv_ne k n v false env hkn]
    exact h

theorem envLookup_foldl_of_not_mem (k : String) (l : EnvMap) (env : EnvMap)
    (h : ∀ p ∈ l, p.1 ≠ k) :
    envLookup k (l.foldl (fun e p => setenv p.1 p.2 true e) env) =
      envLookup k env := by
  induction l generalizing env with
  | nil => rfl
  | cons p rest ih =>
      rw [List.foldl_cons,
        ih (setenv p.1 p.2 true env) (fun q hq => h q (List.mem_cons_of_mem p hq)),
        envLookup_setenv_ne k p.1 p.2 true env
          (fun hh => h p (List.mem_cons_self p rest) hh.symm)]

theorem envLookup_foldl_of_mem (k v : String) (l : EnvMap) (env : EnvMap)
    (hnd : (l.map Prod.fst).Nodup) (hmem : (k, v) ∈ l) :
    envLookup k (l.foldl (fun e p => setenv p.1 p.2 true e) env) = some v := by
  induction l generalizing env with
  | nil => exact absurd hmem (List.not_mem_nil _)
  | cons p rest ih =>
      rw [List.map_cons, List.nodup_cons] at hnd
      rw [List.foldl_cons]
      rcases List.mem_cons.mp hmem with h1 | h1
      · subst h1
        rw [envLookup_foldl_of_not_mem k rest (setenv (k, v).1 (k, v).2 true env)
            (fun q hq hqk => hnd.1 (by
              show k ∈ List.map Prod.fst rest
              rw [← hqk]
              exact List.mem_map_of_mem Prod.fst hq))]
        exact envLookup_setenv_self k v env
      · exact ih (setenv p.1 p.2 true env) hnd.2 h1

theorem envLookup_graphics_keep (cfg : WineConfiguration) (k v : String)
    (env : EnvMap) (h : envLookup k env = some v) :
    envLookup k (setup_graphics_environment cfg env) = some v := by
  unfold setup_graphics_environment
  dsimp only
  have h1 : envLookup k
      (if cfg.graphics_driver = "x11" then setenv "DISPLAY" ":0" false env
       else if cfg.graphics_driver = "wayland" then
         setenv "WAYLAND_DISPLAY" "wayland-0" false env
       else env) = some v := by
    split
    · exact envLookup_setenv_keep k _ _ v env h
    · split
      · exact envLookup_setenv_keep k _ _ v env h
      · exact h
  split
  · exact envLookup_setenv_keep k _ _ v _ h1
  · exact h1

/-! ### C5 -/

/-- C5, counterexample.  The user-supplied override map gives
`WINEDLLOVERRIDES` the value `"user"`, but with a nonempty DLL-override
feature list the child environment carries the feature-derived value
`"a.dll=n"` instead: `setup_dll_overrides` runs after the user merge in
`execute` and overwrites the user's entry, so the user key does not win. -/
theorem user_dll_override_clobbered_by_feature :
    envLookup "WINEDLLOVERRIDES"
      (assembled_environment
        { WineConfiguration.default "/home/u" with
            dll_overrides := ["a.dll=n"]
            environment_variables := [("WINEDLLOVERRIDES", "user")] }
        [] []) = some "a.dll=n" ∧
    ("WINEDLLOVERRIDES", "user") ∈
      ({ WineConfiguration.default "/home/u" with
            dll_overrides := ["a.dll=n"]
            environment_variables :=
              [("WINEDLLOVERRIDES", "user")] } : WineConfiguration).environment_variables ∧
    some "a.dll=n" ≠ some "user" := by
  refine ⟨rfl, by simp, by decide⟩

/-- C5, amended.  A user-supplied override key wins over every inherited
variable and every variable set inside `setup_environment` (`WINEPREFIX`,
`WINEARCH`, `WINE_VD_RESOLUTION`, `CSMT`, `WINEESYNC`, `WINEFSYNC`, the
audio-triggered `WINEDLLOVERRIDES`), and the graphics variables never
overwrite it (they are set without overwrite) — except for the two keys
the executor rewrites after the user merge: `WINEDLLOVERRIDES` (when the
DLL-override list is nonempty) and `WINE_AUDIO_DRIVER` (when an audio
driver is selected).  For any other key the user's value is the child
environment's value. -/
theorem user_env_overrides_win_except_dll_and_audio (cfg : WineConfiguration)
    (custom env0 : EnvMap) (k v : String)
    (hnd : (cfg.environment_variables.map Prod.fst).Nodup)
    (hmem : (k, v) ∈ cfg.environment_variables)
    (h1 : k ≠ "WINEDLLOVERRIDES") (h2 : k ≠ "WINE_AUDIO_DRIVER") :
    envLookup k (assembled_environment cfg custom env0) = some v := by
  have hsetup : envLookup k (setup_environment cfg custom env0) = some v := by
    unfold setup_environment
    exact envLookup_foldl_of_mem k v cfg.environment_variables _ hnd hmem
  have hdll : envLookup k
      (setup_dll_overrides cfg (setup_environment cfg custom env0)) = some v := by
    unfold setup_dll_overrides
    split
    · rw [envLookup_setenv_ne k "WINEDLLOVERRIDES" _ true _ h1]
      exact hsetup
    · exact hsetup
  have hgfx : envLookup k
      (setup_graphics_environment cfg
        (setup_dll_overrides cfg (setup_environment cfg custom env0))) = some v :=
    envLookup_graphics_keep cfg k v _ hdll
  unfold assembled_environment setup_audio_environment
  split
  · rw [envLookup_setenv_ne k "WINE_AUDIO_DRIVER" _ true _ h2]
    exact hgfx
  · split
    · rw [envLookup_setenv_ne k "WINE_AUDIO_DRIVER" _ true _ h2]
      exact hgfx
    · split
      · rw [envLookup_setenv_ne k "WINE_AUDIO_DRIVER" _ true _ h2]
        exact hgfx
      · exact hgfx

/-- C5 witness: a user override `MYVAR = user` survives the whole
assembly over an inherited environment that also defines `MYVAR`. -/
theorem user_env_overrides_win_witness :
    envLookup "MYVAR"
      (assembled_environment
        { WineConfiguration.default "/home/u" with
            environment_variables := [("MYVAR", "user")] }
        [] [("MYVAR", "inherited")]) = some "user" :=
  user_env_overrides_win_except_dll_and_audio
    { WineConfiguration.default "/home/u" with
        environment_variables := [("MYVAR", "user")] }
    [] [("MYVAR", "inherited")] "MYVAR" "user" (by simp) (by simp)
    (by decide) (by decide)

end WineWrapper
